import Mathlib

/-!
# Verification of `pygantt.py`

A shallow embedding of the core logic of `pygantt.py`:

* `parse_csv` — the sectioned-CSV parser (`parse_csv` in the source),
  modelled over the file's list of lines;
* `Gantt.plot` — the chart-building loop (`Gantt.plot` in the source),
  modelled as a function from the color palette and the parsed mapping to
  the chart drawn on the axes (bars, y-labels, legend, y-ticks, inversion);
* `FileWatcher.has_changed` — the mtime-based change detector, modelled
  with the observed mtimes passed in explicitly (`some t` = `os.stat`
  succeeds and reports mtime `t`; `none` = `os.stat` raises).

Python `OrderedDict`s are modelled as association lists with
insertion-order semantics (`odInsert` keeps the position of an existing
key and appends a fresh one).  Python exceptions are modelled with
`Except`: the `KeyError` raised by `data[None]` when a task line has no
current section is `ParseError.missingSection`, the `ValueError` raised by
`start, finish = parts[:2]` on fewer than two fields is
`ParseError.malformedLine`, the `StopIteration` raised by `next(colors)`
on an exhausted palette is `PlotError.stopIteration`, the `TypeError`
raised by `finish - start` in `_plot_bar` when a task's span involves a
string is `PlotError.typeError`, and an `OSError` from `os.stat` aborts
`has_changed`, whose error payload records the watcher's
partially-updated in-place state.
-/

/-- The value of a start/finish field after `maybe_to_num`: either the
parsed float (modelled as an exact rational) or the original string. -/
inductive PyVal where
  | num (q : Rat)
  | str (s : String)
deriving Repr, DecidableEq

deriving instance DecidableEq for Except

/-- Python's ASCII whitespace, the characters `str.strip()` removes
(non-ASCII Unicode whitespace, which no claim exercises, is omitted). -/
def pyWhitespace (c : Char) : Bool :=
  c = ' ' ∨ c = '\t' ∨ c = '\n' ∨ c = '\r' ∨ c = '\x0b' ∨ c = '\x0c'

/-- Python's `str.strip()`: drop leading and trailing whitespace. -/
def pyStrip (s : String) : String :=
  ⟨((s.toList.dropWhile pyWhitespace).reverse.dropWhile pyWhitespace).reverse⟩

/-- Python's `str.startswith(pre)`. -/
def pyStartsWith (s pre : String) : Bool :=
  List.isPrefixOf pre.toList s.toList

/-- Python's `len(s)`. -/
def pyLen (s : String) : Nat := s.toList.length

/-- Python's `s[1:]`. -/
def pyTail (s : String) : String := ⟨s.toList.drop 1⟩

/-- Helper for `pySplitComma`: `acc` holds the current field reversed. -/
def pySplitCommaAux : List Char → List Char → List String
  | [], acc => [⟨acc.reverse⟩]
  | c :: rest, acc =>
    if c = ',' then ⟨acc.reverse⟩ :: pySplitCommaAux rest []
    else pySplitCommaAux rest (c :: acc)

/-- Python's `s.split(",")`: every comma is a separator, empty fields are
kept, and the empty string yields `[""]`. -/
def pySplitComma (s : String) : List String := pySplitCommaAux s.toList []

/-- Python's `",".join(parts)`. -/
def pyJoinComma : List String → String
  | [] => ""
  | [s] => s
  | s :: rest => s ++ "," ++ pyJoinComma rest

/-- The rational `sign * mant * 10 ^ k`, built with `mkRat`. -/
def decValue (sign : Int) (mant : Nat) (k : Int) : Rat :=
  match k with
  | Int.ofNat n => mkRat (sign * ((mant * 10 ^ n : Nat) : Int)) 1
  | Int.negSucc n => mkRat (sign * (mant : Int)) (10 ^ (n + 1))

/-- The numeric value of a list of decimal digit characters. -/
def digitsToNat (cs : List Char) : Nat :=
  cs.foldl (fun a c => 10 * a + (c.toNat - 48)) 0

/-- The exponent suffix of a float literal: empty input means exponent 0;
otherwise `e`/`E`, an optional sign, and at least one digit consuming the
rest of the input. -/
def parseExp (cs : List Char) : Option Int :=
  match cs with
  | [] => some 0
  | c :: rest =>
    if c = 'e' ∨ c = 'E' then
      let (esign, rest2) :=
        match rest with
        | '+' :: r => ((1 : Int), r)
        | '-' :: r => ((-1 : Int), r)
        | _ => ((1 : Int), rest)
      let ds := rest2.takeWhile Char.isDigit
      let rest3 := rest2.dropWhile Char.isDigit
      if ds.isEmpty || !rest3.isEmpty then none
      else some (esign * (digitsToNat ds : Int))
    else none

/-- Python's `float(str)` on finite decimal literals, returning the exact
rational value: surrounding whitespace stripped, an optional sign, digits
with an optional fractional part (at least one digit in the mantissa), and
an optional exponent.  The special forms `inf`/`nan` and digit-group
underscores, which no claim exercises, are not modelled. -/
def pyFloat? (s : String) : Option Rat :=
  let cs := (pyStrip s).toList
  let (sign, cs1) :=
    match cs with
    | '+' :: rest => ((1 : Int), rest)
    | '-' :: rest => ((-1 : Int), rest)
    | _ => ((1 : Int), cs)
  let intPart := cs1.takeWhile Char.isDigit
  let afterInt := cs1.dropWhile Char.isDigit
  let (fracPart, afterFrac) :=
    match afterInt with
    | '.' :: rest => (rest.takeWhile Char.isDigit, rest.dropWhile Char.isDigit)
    | _ => (([] : List Char), afterInt)
  if intPart.isEmpty && fracPart.isEmpty then none
  else
    match parseExp afterFrac with
    | none => none
    | some e =>
      some (decValue sign (digitsToNat (intPart ++ fracPart))
        (e - (fracPart.length : Int)))

/-- `maybe_to_num` from `parse_csv`: `float(val)` if that succeeds, the
original string otherwise. -/
def maybe_to_num (val : String) : PyVal :=
  match pyFloat? val with
  | some q => PyVal.num q
  | none => PyVal.str val

/-- A task as stored by the parser: `[maybe_to_num(start),
maybe_to_num(finish), item]`. -/
abbrev TaskItem := PyVal × PyVal × String

/-- The parser's `OrderedDict`: an association list from section name to
task list, in insertion order. -/
abbrev DataMap := List (String × List TaskItem)

/-- `d[k] = v` on an ordered dictionary: an existing key keeps its
position and gets the new value, a fresh key is appended at the end. -/
def odInsert {α : Type} (d : List (String × α)) (k : String) (v : α) :
    List (String × α) :=
  if d.any (fun p => p.1 = k) then
    d.map (fun p => if p.1 = k then (k, v) else p)
  else d ++ [(k, v)]

/-- `d[k]` lookup on an ordered dictionary. -/
def odGet? {α : Type} (d : List (String × α)) (k : String) : Option α :=
  (d.find? (fun p => p.1 = k)).map Prod.snd

/-- The two exceptions `parse_csv` can raise on bad input. -/
inductive ParseError where
  /-- `KeyError` from `data[current_section]`: in every reachable state
  this is `data[None]`, a task line with no current section. -/
  | missingSection
  /-- `ValueError` from `start, finish = parts[:2]` when the line split
  on commas has fewer than two fields. -/
  | malformedLine
deriving Repr, DecidableEq

/-- The parser's loop state: the mapping built so far and
`current_section` (`none` is Python's initial `None`). -/
structure ParseState where
  data : DataMap
  currentSection : Option String
deriving Repr, DecidableEq

/-- One iteration of the `for line in f.readlines()` loop of `parse_csv`. -/
def parseLine (st : ParseState) (rawLine : String) : Except ParseError ParseState :=
  let line := pyStrip rawLine
  if pyLen line ≤ 1 ∨ pyStartsWith line "#" then
    .ok st
  else if pyStartsWith line "*" then
    let sec := pyStrip (pyTail line)
    .ok ⟨odInsert st.data sec [], some sec⟩
  else
    match pySplitComma line with
    | start :: finish :: rest =>
      let item := pyJoinComma rest
      match st.currentSection with
      | none => .error .missingSection
      | some sec =>
        match odGet? st.data sec with
        | none => .error .missingSection
        | some ts =>
          .ok ⟨odInsert st.data sec
              (ts ++ [(maybe_to_num start, maybe_to_num finish, item)]),
            some sec⟩
    | _ => .error .malformedLine

/-- The parser's line loop; a raised exception aborts the remaining lines. -/
def parseLines (st : ParseState) (lines : List String) :
    Except ParseError ParseState :=
  match lines with
  | [] => .ok st
  | l :: rest =>
    match parseLine st l with
    | .error e => .error e
    | .ok st2 => parseLines st2 rest

/-- `parse_csv`, over the file's list of lines (`f.readlines()` with the
line terminators dropped; `strip` discards them anyway). -/
def parse_csv (lines : List String) : Except ParseError DataMap :=
  (parseLines ⟨[], none⟩ lines).map ParseState.data

/-- One bar drawn by `Gantt._plot_bar`: `barh(ypos, finish - start,
left=start, color=color, ...)`, so it spans `start` to `finish` at row
`ypos`.  The bar value doubles as the handle `barh` returns. -/
structure Bar where
  ypos : Nat
  start : PyVal
  finish : PyVal
  color : String
deriving Repr, DecidableEq

/-- The exceptions `Gantt.plot` can raise mid-loop. -/
inductive PlotError where
  /-- `StopIteration` from `next(colors)` when the palette iterator is
  exhausted. -/
  | stopIteration
  /-- `TypeError` from `finish - start` inside `_plot_bar` when either
  span operand is a string rather than a float (Python defines `-` on two
  floats but not when a string is involved). -/
  | typeError
deriving Repr, DecidableEq

/-- Whether a task's `start` and `finish` are both numbers, i.e. whether
`finish - start` in `_plot_bar` is defined for it. -/
def numericTask : TaskItem → Bool
  | (PyVal.num _, PyVal.num _, _) => true
  | _ => false

/-- What `Gantt.plot` leaves on the axes: the bars in drawing order, the
y-tick labels, the legend (an ordered dict from section title to bar
handle), the y-tick positions `range(len(ylabels))`, and whether
`invert_yaxis` was called. -/
structure Chart where
  bars : List Bar
  ylabels : List String
  legend : List (String × Bar)
  yticks : List Nat
  yInverted : Bool
deriving Repr, DecidableEq

/-- The inner task loop of `Gantt.plot` for one section: each task calls
`_plot_bar(len(ylabels), start, finish, color)`, which evaluates
`finish - start` — raising `TypeError` when either operand is a string,
before anything is drawn or appended — then draws the bar at row
`len(ylabels)`, appends its label, and stores its handle under the section
title in the legend dict. -/
def plotTasksGo (title color : String) (tasks : List TaskItem)
    (bars : List Bar) (ylabels : List String)
    (legend : List (String × Bar)) :
    Except PlotError (List Bar × List String × List (String × Bar)) :=
  match tasks with
  | [] => .ok (bars, ylabels, legend)
  | (start, finish, item) :: rest =>
    match start, finish with
    | PyVal.num a, PyVal.num b =>
      let bar : Bar := ⟨ylabels.length, PyVal.num a, PyVal.num b, color⟩
      plotTasksGo title color rest (bars ++ [bar]) (ylabels ++ [item])
        (odInsert legend title bar)
    | _, _ => .error .typeError

/-- The section loop of `Gantt.plot`: `color = next(colors)` per section
(raising `StopIteration` when the palette runs out), then the task loop
(whose `TypeError`, if any, propagates). -/
def plotGo (colors : List String) (data : DataMap)
    (bars : List Bar) (ylabels : List String)
    (legend : List (String × Bar)) :
    Except PlotError (List Bar × List String × List (String × Bar)) :=
  match data with
  | [] => .ok (bars, ylabels, legend)
  | (title, tasks) :: restSecs =>
    match colors with
    | [] => .error .stopIteration
    | c :: cs =>
      match plotTasksGo title c tasks bars ylabels legend with
      | .error e => .error e
      | .ok (bars2, ylabels2, legend2) => plotGo cs restSecs bars2 ylabels2 legend2

/-- `Gantt.plot`: runs the drawing loop from empty accumulators, then sets
the y-ticks to `range(len(ylabels))` and inverts the y-axis.  `colors` is
`self.colors`, the palette read from `plt.rcParams` in `Gantt.__init__`;
`data` is `self.data`. -/
def Gantt.plot (colors : List String) (data : DataMap) :
    Except PlotError Chart :=
  match plotGo colors data [] [] [] with
  | .error e => .error e
  | .ok (bars, ylabels, legend) =>
    .ok ⟨bars, ylabels, legend, List.range ylabels.length, true⟩

/-- The matplotlib default `axes.prop_cycle` palette (tab10), the value
`Gantt.__init__` reads from `plt.rcParams` under default configuration. -/
def defaultColors : List String :=
  ["#1f77b4", "#ff7f0e", "#2ca02c", "#d62728", "#9467bd",
   "#8c564b", "#e377c2", "#7f7f7f", "#bcbd22", "#17becf"]

/-- `FileWatcher`'s state: `self._mtime`, one entry per tracked file,
initialised to `None` (`[None] * len(filepaths)`). -/
structure FileWatcher where
  mtimes : List (Option Nat)
deriving Repr, DecidableEq

/-- `FileWatcher.__init__` for `n` tracked files. -/
def FileWatcher.init (n : Nat) : FileWatcher := ⟨List.replicate n none⟩

/-- The index loop of `has_changed` over the stored baselines, given the
observed mtimes (`some t` = `os.stat` succeeds with mtime `t`, `none` =
`os.stat` raises).  On success: the per-file change flags and the updated
baselines.  On a raise at index `k`: the baselines as mutated so far
(entries before `k` updated in place, entries from `k` on untouched). -/
def pollAux (base obs : List (Option Nat)) :
    Except (List (Option Nat)) (List Bool × List (Option Nat)) :=
  match base, obs with
  | [], _ => .ok ([], [])
  | b :: bs, [] => .error (b :: bs)
  | b :: bs, o :: os =>
    match o with
    | none => .error (b :: bs)
    | some t =>
      match pollAux bs os with
      | .error rest => .error (some t :: rest)
      | .ok (flags, newBase) =>
        .ok (decide (some t ≠ b) :: flags, some t :: newBase)

/-- `FileWatcher.has_changed`: per file, compare the freshly observed
mtime with the stored baseline and overwrite the baseline, then return
`any` of the flags.  A raise from `os.stat` propagates; the error payload
is the watcher as its in-place mutation left it. -/
def FileWatcher.has_changed (w : FileWatcher) (obs : List (Option Nat)) :
    Except FileWatcher (Bool × FileWatcher) :=
  match pollAux w.mtimes obs with
  | .error pbase => .error ⟨pbase⟩
  | .ok (flags, newBase) => .ok (flags.any id, ⟨newBase⟩)

/-! ## Descriptions of the chart `Gantt.plot` draws

The following functions give closed forms for the bars, labels and legend
the drawing loop produces; the lemmas below prove the loop equal to them. -/

/-- The bars one section's tasks produce, starting at row `off`. -/
def taskBars (off : Nat) (color : String) : List TaskItem → List Bar
  | [] => []
  | (s, f, _) :: rest => ⟨off, s, f, color⟩ :: taskBars (off + 1) color rest

/-- The legend updates one section's bars perform. -/
def taskLegend (legend : List (String × Bar)) (title : String) :
    List Bar → List (String × Bar)
  | [] => legend
  | b :: rest => taskLegend (odInsert legend title b) title rest

/-- All task labels of the mapping, in (section order, task order). -/
def chartLabels : DataMap → List String
  | [] => []
  | (_, ts) :: rest => ts.map (fun t => t.2.2) ++ chartLabels rest

/-- The total number of tasks across all sections. -/
def totalTasks : DataMap → Nat
  | [] => 0
  | (_, ts) :: rest => ts.length + totalTasks rest

/-- All `(start, finish)` spans of the mapping, in (section order, task
order). -/
def chartTaskData : DataMap → List (PyVal × PyVal)
  | [] => []
  | (_, ts) :: rest => ts.map (fun t => (t.1, t.2.1)) ++ chartTaskData rest

/-- The color of every bar: the `i`-th section's tasks all get the `i`-th
palette entry. -/
def sectionColors : List String → DataMap → List String
  | _, [] => []
  | [], _ :: _ => []
  | c :: cs, (_, ts) :: rest => List.replicate ts.length c ++ sectionColors cs rest

/-- All bars of the mapping, rows starting at `off`, the `i`-th section
colored with the `i`-th palette entry. -/
def dataBars (off : Nat) : List String → DataMap → List Bar
  | _, [] => []
  | [], _ :: _ => []
  | c :: cs, (_, ts) :: rest =>
    taskBars off c ts ++ dataBars (off + ts.length) cs rest

/-- The legend after all sections, threading the accumulated dictionary. -/
def dataLegend : Nat → List (String × Bar) → List String → DataMap →
    List (String × Bar)
  | _, legend, _, [] => legend
  | _, legend, [], _ :: _ => legend
  | off, legend, c :: cs, (title, ts) :: rest =>
    dataLegend (off + ts.length)
      (taskLegend legend title (taskBars off c ts)) cs rest

/-- The legend in closed form: one entry per section that has at least one
task, in section order, whose handle is the last bar drawn for that
section. -/
def legendSpec : Nat → List String → DataMap → List (String × Bar)
  | _, _, [] => []
  | _, [], _ :: _ => []
  | off, c :: cs, (title, ts) :: rest =>
    (match (taskBars off c ts).getLast? with
     | none => []
     | some b => [(title, b)]) ++ legendSpec (off + ts.length) cs rest

/-! ## Ordered-dictionary lemmas -/

theorem odInsert_pos {α : Type} (d : List (String × α)) (k : String) (v : α)
    (h : d.any (fun p => p.1 = k) = true) :
    odInsert d k v = d.map (fun p => if p.1 = k then (k, v) else p) := by
  simp [odInsert, h]

theorem odInsert_neg {α : Type} (d : List (String × α)) (k : String) (v : α)
    (h : d.any (fun p => p.1 = k) = false) :
    odInsert d k v = d ++ [(k, v)] := by
  simp [odInsert, h]

theorem odInsert_any {α : Type} (d : List (String × α)) (k : String) (v : α) :
    (odInsert d k v).any (fun p => p.1 = k) = true := by
  cases h : d.any (fun p => p.1 = k) with
  | true =>
    rw [odInsert_pos d k v h]
    rw [List.any_eq_true] at h ⊢
    obtain ⟨p, hp, hpk⟩ := h
    refine ⟨(k, v), List.mem_map.mpr ⟨p, hp, ?_⟩, by simp⟩
    simp at hpk
    simp [hpk]
  | false =>
    rw [odInsert_neg d k v h]
    simp

/-- Replacing key `k` in a map that does not contain it changes nothing. -/
theorem map_keep_of_ne {α : Type} (d : List (String × α)) (k : String) (v : α)
    (h : ∀ p ∈ d, ¬ p.1 = k) :
    d.map (fun p => if p.1 = k then (k, v) else p) = d := by
  induction d with
  | nil => rfl
  | cons p rest ih =>
    simp only [List.map_cons]
    rw [if_neg (h p (by simp))]
    rw [ih (fun q hq => h q (by simp [hq]))]

theorem odInsert_odInsert {α : Type} (d : List (String × α)) (k : String)
    (v v' : α) : odInsert (odInsert d k v) k v' = odInsert d k v' := by
  rw [odInsert_pos (odInsert d k v) k v' (odInsert_any d k v)]
  cases h : d.any (fun p => p.1 = k) with
  | true =>
    rw [odInsert_pos d k v h, odInsert_pos d k v' h, List.map_map]
    apply List.map_congr_left
    intro p _
    by_cases hp : p.1 = k <;> simp [hp]
  | false =>
    rw [odInsert_neg d k v h, odInsert_neg d k v' h]
    rw [List.any_eq_false] at h
    simp only [List.map_append]
    congr 1
    · exact map_keep_of_ne d k v' (fun p hp => by simpa using h p hp)
    · simp

/-! ## The drawing loop in closed form -/

theorem plotTasksGo_ok (title color : String) (tasks : List TaskItem) :
    ∀ (bars : List Bar) (ylabels : List String)
      (legend : List (String × Bar)),
    tasks.all numericTask = true →
    plotTasksGo title color tasks bars ylabels legend =
      .ok (bars ++ taskBars ylabels.length color tasks,
        ylabels ++ tasks.map (fun t => t.2.2),
        taskLegend legend title (taskBars ylabels.length color tasks)) := by
  induction tasks with
  | nil =>
    intro bars ylabels legend _
    simp [plotTasksGo, taskBars, taskLegend]
  | cons t rest ih =>
    obtain ⟨s, f, i⟩ := t
    intro bars ylabels legend hnum
    rw [List.all_cons, Bool.and_eq_true] at hnum
    obtain ⟨hsf, hrest⟩ := hnum
    match s, f with
    | PyVal.str v, _ => simp [numericTask] at hsf
    | PyVal.num a, PyVal.str v => simp [numericTask] at hsf
    | PyVal.num a, PyVal.num b =>
      rw [plotTasksGo, ih _ _ _ hrest]
      simp [taskBars, taskLegend]

theorem plotTasksGo_err (title color : String) (tasks : List TaskItem) :
    ∀ (bars : List Bar) (ylabels : List String)
      (legend : List (String × Bar)),
    tasks.all numericTask = false →
    plotTasksGo title color tasks bars ylabels legend =
      .error .typeError := by
  induction tasks with
  | nil => intro bars ylabels legend hnum; simp at hnum
  | cons t rest ih =>
    obtain ⟨s, f, i⟩ := t
    intro bars ylabels legend hnum
    match s, f with
    | PyVal.str v, PyVal.num b =>
      rw [plotTasksGo]
      intro a2 b2 h1 h2
      exact PyVal.noConfusion h1
    | PyVal.str v, PyVal.str w =>
      rw [plotTasksGo]
      intro a2 b2 h1 h2
      exact PyVal.noConfusion h1
    | PyVal.num a, PyVal.str v =>
      rw [plotTasksGo]
      intro a2 b2 h1 h2
      exact PyVal.noConfusion h2
    | PyVal.num a, PyVal.num b =>
      rw [List.all_cons] at hnum
      simp only [numericTask, Bool.true_and] at hnum
      rw [plotTasksGo]
      exact ih _ _ _ hnum

theorem plotGo_eq (data : DataMap) :
    ∀ (colors : List String) (bars : List Bar) (ylabels : List String)
      (legend : List (String × Bar)),
    data.length ≤ colors.length →
    data.all (fun s => s.2.all numericTask) = true →
    plotGo colors data bars ylabels legend =
      .ok (bars ++ dataBars ylabels.length colors data,
           ylabels ++ chartLabels data,
           dataLegend ylabels.length legend colors data) := by
  induction data with
  | nil =>
    intro colors bars ylabels legend _ _
    simp [plotGo, dataBars, chartLabels, dataLegend]
  | cons sec rest ih =>
    obtain ⟨title, ts⟩ := sec
    intro colors bars ylabels legend h hnum
    rw [List.all_cons, Bool.and_eq_true] at hnum
    obtain ⟨hts, hrest⟩ := hnum
    match colors with
    | [] => simp at h
    | c :: cs =>
      rw [plotGo, plotTasksGo_ok title c ts _ _ _ hts]
      dsimp only
      rw [ih cs _ _ _ (by simpa using h) hrest]
      simp [dataBars, chartLabels, dataLegend, Nat.add_comm]

theorem plotGo_err (data : DataMap) :
    ∀ (colors : List String) (bars : List Bar) (ylabels : List String)
      (legend : List (String × Bar)),
    colors.length < data.length →
    data.all (fun s => s.2.all numericTask) = true →
    plotGo colors data bars ylabels legend = .error .stopIteration := by
  induction data with
  | nil => intro colors bars ylabels legend h _; simp at h
  | cons sec rest ih =>
    obtain ⟨title, ts⟩ := sec
    intro colors bars ylabels legend h hnum
    rw [List.all_cons, Bool.and_eq_true] at hnum
    obtain ⟨hts, hrest⟩ := hnum
    match colors with
    | [] => rw [plotGo]
    | c :: cs =>
      rw [plotGo, plotTasksGo_ok title c ts _ _ _ hts]
      dsimp only
      exact ih cs _ _ _ (by simpa using h) hrest

theorem plotGo_typeError (pre : DataMap) :
    ∀ (colors : List String) (title : String) (ts : List TaskItem)
      (rest : DataMap) (bars : List Bar) (ylabels : List String)
      (legend : List (String × Bar)),
    (∀ s ∈ pre, s.2.all numericTask = true) →
    pre.length < colors.length →
    ts.all numericTask = false →
    plotGo colors (pre ++ (title, ts) :: rest) bars ylabels legend =
      .error .typeError := by
  induction pre with
  | nil =>
    intro colors title ts rest bars ylabels legend _ hlen hts
    match colors with
    | [] => simp at hlen
    | c :: cs =>
      rw [List.nil_append, plotGo, plotTasksGo_err title c ts _ _ _ hts]
  | cons sec pre2 ih =>
    obtain ⟨t0, ts0⟩ := sec
    intro colors title ts rest bars ylabels legend hpre hlen hts
    match colors with
    | [] => simp at hlen
    | c :: cs =>
      rw [List.cons_append, plotGo,
        plotTasksGo_ok t0 c ts0 _ _ _ (hpre (t0, ts0) (by simp))]
      dsimp only
      exact ih cs title ts rest _ _ _
        (fun s hs => hpre s (by simp [hs])) (by simpa using hlen) hts

theorem plot_ok_eq (colors : List String) (data : DataMap)
    (h : data.length ≤ colors.length)
    (hnum : data.all (fun s => s.2.all numericTask) = true) :
    Gantt.plot colors data =
      .ok ⟨dataBars 0 colors data, chartLabels data,
           dataLegend 0 [] colors data,
           List.range (chartLabels data).length, true⟩ := by
  unfold Gantt.plot
  rw [plotGo_eq data colors [] [] [] h hnum]
  simp

theorem plot_err (colors : List String) (data : DataMap)
    (h : colors.length < data.length)
    (hnum : data.all (fun s => s.2.all numericTask) = true) :
    Gantt.plot colors data = .error .stopIteration := by
  unfold Gantt.plot
  rw [plotGo_err data colors [] [] [] h hnum]

theorem plot_typeError (colors : List String) (pre : DataMap)
    (title : String) (ts : List TaskItem) (rest : DataMap)
    (hpre : ∀ s ∈ pre, s.2.all numericTask = true)
    (hlen : pre.length < colors.length)
    (hts : ts.all numericTask = false) :
    Gantt.plot colors (pre ++ (title, ts) :: rest) = .error .typeError := by
  unfold Gantt.plot
  rw [plotGo_typeError pre colors title ts rest [] [] [] hpre hlen hts]

theorem plotGo_ok_inv (data : DataMap) :
    ∀ (colors : List String) (bars : List Bar) (ylabels : List String)
      (legend : List (String × Bar))
      (res : List Bar × List String × List (String × Bar)),
    plotGo colors data bars ylabels legend = .ok res →
    data.length ≤ colors.length ∧
      data.all (fun s => s.2.all numericTask) = true := by
  induction data with
  | nil => intro colors bars ylabels legend res _; simp
  | cons sec rest ih =>
    obtain ⟨title, ts⟩ := sec
    intro colors bars ylabels legend res h
    match colors with
    | [] => rw [plotGo] at h; exact Except.noConfusion h
    | c :: cs =>
      rw [plotGo] at h
      cases hts : ts.all numericTask with
      | false =>
        rw [plotTasksGo_err title c ts _ _ _ hts] at h
        exact Except.noConfusion h
      | true =>
        rw [plotTasksGo_ok title c ts _ _ _ hts] at h
        dsimp only at h
        obtain ⟨hle, hall⟩ := ih cs _ _ _ res h
        refine ⟨by simpa using Nat.succ_le_succ hle, ?_⟩
        rw [List.all_cons, Bool.and_eq_true]
        exact ⟨hts, hall⟩

theorem plot_ok_inv {colors : List String} {data : DataMap} {ch : Chart}
    (h : Gantt.plot colors data = .ok ch) :
    data.length ≤ colors.length ∧
      data.all (fun s => s.2.all numericTask) = true := by
  unfold Gantt.plot at h
  cases hg : plotGo colors data [] [] [] with
  | error e => rw [hg] at h; exact Except.noConfusion h
  | ok res => exact plotGo_ok_inv data colors [] [] [] res hg

/-! ## Properties of the closed forms -/

theorem taskBars_map_ypos (color : String) (tasks : List TaskItem) :
    ∀ off, (taskBars off color tasks).map Bar.ypos =
      List.range' off tasks.length := by
  induction tasks with
  | nil => intro off; simp [taskBars]
  | cons t rest ih =>
    obtain ⟨s, f, i⟩ := t
    intro off
    simp [taskBars, List.range'_succ, ih]

theorem taskBars_map_color (color : String) (tasks : List TaskItem) (off : Nat) :
    (taskBars off color tasks).map Bar.color =
      List.replicate tasks.length color := by
  induction tasks generalizing off with
  | nil => simp [taskBars]
  | cons t rest ih =>
    obtain ⟨s, f, i⟩ := t
    simp [taskBars, List.replicate_succ, ih]

theorem taskBars_map_span (color : String) (tasks : List TaskItem) (off : Nat) :
    (taskBars off color tasks).map (fun b => (b.start, b.finish)) =
      tasks.map (fun t => (t.1, t.2.1)) := by
  induction tasks generalizing off with
  | nil => simp [taskBars]
  | cons t rest ih =>
    obtain ⟨s, f, i⟩ := t
    simp [taskBars, ih]

theorem taskBars_length (color : String) (tasks : List TaskItem) (off : Nat) :
    (taskBars off color tasks).length = tasks.length := by
  induction tasks generalizing off with
  | nil => rfl
  | cons t rest ih =>
    obtain ⟨s, f, i⟩ := t
    simp [taskBars, ih]

theorem dataBars_map_ypos (data : DataMap) :
    ∀ (colors : List String) off, data.length ≤ colors.length →
    (dataBars off colors data).map Bar.ypos =
      List.range' off (totalTasks data) := by
  induction data with
  | nil => intro colors off _; simp [dataBars, totalTasks]
  | cons sec rest ih =>
    obtain ⟨title, ts⟩ := sec
    intro colors off h
    match colors with
    | [] => simp at h
    | c :: cs =>
      rw [dataBars, List.map_append, taskBars_map_ypos,
        ih cs _ (by simpa using h), totalTasks]
      rw [Nat.add_comm ts.length (totalTasks rest), List.range'_append_1]

theorem dataBars_map_color (data : DataMap) :
    ∀ (colors : List String) off, data.length ≤ colors.length →
    (dataBars off colors data).map Bar.color = sectionColors colors data := by
  induction data with
  | nil => intro colors off _; simp [dataBars, sectionColors]
  | cons sec rest ih =>
    obtain ⟨title, ts⟩ := sec
    intro colors off h
    match colors with
    | [] => simp at h
    | c :: cs =>
      rw [dataBars, List.map_append, taskBars_map_color,
        ih cs _ (by simpa using h), sectionColors]

theorem dataBars_map_span (data : DataMap) :
    ∀ (colors : List String) off, data.length ≤ colors.length →
    (dataBars off colors data).map (fun b => (b.start, b.finish)) =
      chartTaskData data := by
  induction data with
  | nil => intro colors off _; simp [dataBars, chartTaskData]
  | cons sec rest ih =>
    obtain ⟨title, ts⟩ := sec
    intro colors off h
    match colors with
    | [] => simp at h
    | c :: cs =>
      rw [dataBars, List.map_append, taskBars_map_span,
        ih cs _ (by simpa using h), chartTaskData]

theorem chartLabels_length (data : DataMap) :
    (chartLabels data).length = totalTasks data := by
  induction data with
  | nil => rfl
  | cons sec rest ih =>
    obtain ⟨title, ts⟩ := sec
    simp [chartLabels, totalTasks, ih]

/-! ## Legend lemmas -/

theorem taskLegend_eq (title : String) (bs : List Bar) :
    ∀ legend : List (String × Bar),
    taskLegend legend title bs =
      match bs.getLast? with
      | none => legend
      | some b => odInsert legend title b := by
  induction bs with
  | nil => intro legend; simp [taskLegend]
  | cons b rest ih =>
    intro legend
    rw [taskLegend, ih]
    cases rest with
    | nil => simp
    | cons b2 rest2 =>
      rw [List.getLast?_cons_cons]
      cases hl : (b2 :: rest2).getLast? with
      | none =>
        rw [List.getLast?_eq_none_iff] at hl
        exact absurd hl (by simp)
      | some b3 => simp [odInsert_odInsert]

theorem dataLegend_eq (data : DataMap) :
    ∀ (colors : List String) (off : Nat) (legend : List (String × Bar)),
    (data.map Prod.fst).Nodup →
    (∀ sec ∈ data.map Prod.fst, legend.any (fun p => p.1 = sec) = false) →
    dataLegend off legend colors data = legend ++ legendSpec off colors data := by
  induction data with
  | nil =>
    intro colors off legend _ _
    cases colors <;> simp [dataLegend, legendSpec]
  | cons secd rest ih =>
    obtain ⟨title, ts⟩ := secd
    intro colors off legend hnodup hfresh
    match colors with
    | [] => simp [dataLegend, legendSpec]
    | c :: cs =>
      have hnodup2 : (rest.map Prod.fst).Nodup := by
        simpa using (List.nodup_cons.mp (by simpa using hnodup)).2
      have htitle_notmem : title ∉ rest.map Prod.fst :=
        (List.nodup_cons.mp (by simpa using hnodup)).1
      rw [dataLegend, taskLegend_eq]
      cases hl : (taskBars off c ts).getLast? with
      | none =>
        rw [ih cs _ _ hnodup2 (fun sec hsec => hfresh sec (by simp [hsec]))]
        rw [legendSpec, hl]
        simp
      | some b =>
        have htitle : legend.any (fun p => p.1 = title) = false :=
          hfresh title (by simp)
        dsimp only
        rw [odInsert_neg legend title b htitle]
        rw [ih cs _ _ hnodup2 ?_]
        · rw [legendSpec, hl]
          simp
        · intro sec hsec
          rw [List.any_append]
          rw [hfresh sec (by simp [hsec])]
          have : ¬ title = sec := fun he => htitle_notmem (he ▸ hsec)
          simp [this]

theorem taskBars_ne_nil (color : String) (t : TaskItem) (ts : List TaskItem)
    (off : Nat) : taskBars off color (t :: ts) ≠ [] := by
  obtain ⟨s, f, i⟩ := t
  simp [taskBars]

theorem legendSpec_keys (data : DataMap) :
    ∀ (colors : List String) (off : Nat), data.length ≤ colors.length →
    (legendSpec off colors data).map Prod.fst =
      (data.filter (fun s => !s.2.isEmpty)).map Prod.fst := by
  induction data with
  | nil => intro colors off _; cases colors <;> simp [legendSpec]
  | cons secd rest ih =>
    obtain ⟨title, ts⟩ := secd
    intro colors off h
    match colors with
    | [] => simp at h
    | c :: cs =>
      rw [legendSpec]
      cases ts with
      | nil =>
        rw [show taskBars off c [] = [] from rfl]
        simp only [List.getLast?_nil]
        simp only [List.nil_append]
        rw [ih cs _ (by simpa using h)]
        simp [List.filter]
      | cons t ts2 =>
        have hne := taskBars_ne_nil c t ts2 off
        cases hl : (taskBars off c (t :: ts2)).getLast? with
        | none =>
          rw [List.getLast?_eq_none_iff] at hl
          exact absurd hl hne
        | some b =>
          simp only [List.map_append, List.map_cons, List.map_nil]
          rw [ih cs _ (by simpa using h)]
          simp [List.filter]

/-! ## Parser lemmas -/

theorem parseLine_ignored (st : ParseState) (l : String)
    (h : pyLen (pyStrip l) ≤ 1 ∨ pyStartsWith (pyStrip l) "#" = true) :
    parseLine st l = .ok st := by
  simp only [parseLine]
  rw [if_pos h]

theorem parseLine_task (st : ParseState) (l start finish : String)
    (rest : List String)
    (hig : ¬ (pyLen (pyStrip l) ≤ 1 ∨ pyStartsWith (pyStrip l) "#" = true))
    (hstar : ¬ pyStartsWith (pyStrip l) "*" = true)
    (hsplit : pySplitComma (pyStrip l) = start :: finish :: rest) :
    parseLine st l =
      match st.currentSection with
      | none => .error .missingSection
      | some sec =>
        match odGet? st.data sec with
        | none => .error .missingSection
        | some ts =>
          .ok ⟨odInsert st.data sec
              (ts ++ [(maybe_to_num start, maybe_to_num finish,
                pyJoinComma rest)]), some sec⟩ := by
  simp only [parseLine]
  rw [if_neg hig, if_neg hstar, hsplit]

theorem parseLine_malformed (st : ParseState) (l : String)
    (hig : ¬ (pyLen (pyStrip l) ≤ 1 ∨ pyStartsWith (pyStrip l) "#" = true))
    (hstar : ¬ pyStartsWith (pyStrip l) "*" = true)
    (hshort : (pySplitComma (pyStrip l)).length < 2) :
    parseLine st l = .error .malformedLine := by
  simp only [parseLine]
  rw [if_neg hig, if_neg hstar]
  cases hs : pySplitComma (pyStrip l) with
  | nil => rfl
  | cons a tl =>
    cases tl with
    | nil => rfl
    | cons a2 tl2 =>
      rw [hs] at hshort
      simp only [List.length_cons] at hshort
      exact absurd hshort (by omega)

theorem parseLines_ignored (pre : List String) :
    ∀ st : ParseState,
    (∀ p ∈ pre, pyLen (pyStrip p) ≤ 1 ∨ pyStartsWith (pyStrip p) "#" = true) →
    parseLines st pre = .ok st := by
  induction pre with
  | nil => intro st _; rfl
  | cons p rest ih =>
    intro st h
    rw [parseLines, parseLine_ignored st p (h p (by simp))]
    exact ih st (fun q hq => h q (by simp [hq]))

theorem parseLines_append (xs ys : List String) :
    ∀ st, parseLines st (xs ++ ys) =
      match parseLines st xs with
      | .error e => .error e
      | .ok st2 => parseLines st2 ys := by
  induction xs with
  | nil => intro st; rfl
  | cons x xs2 ih =>
    intro st
    cases h : parseLine st x with
    | error e => simp [parseLines, h]
    | ok st2 => simp [parseLines, h, ih st2]

/-! ## Watcher lemmas -/

theorem pollAux_ok (obs : List Nat) :
    ∀ base : List (Option Nat), base.length = obs.length →
    pollAux base (obs.map some) =
      .ok ((base.zip (obs.map some)).map (fun p => decide (p.2 ≠ p.1)),
        obs.map some) := by
  induction obs with
  | nil =>
    intro base h
    cases base with
    | nil => rfl
    | cons b bs => simp at h
  | cons o os ih =>
    intro base h
    cases base with
    | nil => simp at h
    | cons b bs =>
      rw [List.map_cons, pollAux, ih bs (by simpa using h)]
      simp [List.zip_cons_cons]

theorem pollAux_error (pre : List Nat) :
    ∀ (base1 : List (Option Nat)) (b : Option Nat)
      (base2 post : List (Option Nat)),
    base1.length = pre.length →
    pollAux (base1 ++ b :: base2) ((pre.map some) ++ none :: post) =
      .error ((pre.map some) ++ b :: base2) := by
  induction pre with
  | nil =>
    intro base1 b base2 post h
    cases base1 with
    | nil => rfl
    | cons x xs => simp at h
  | cons p ps ih =>
    intro base1 b base2 post h
    cases base1 with
    | nil => simp at h
    | cons x xs =>
      simp only [List.map_cons, List.cons_append, pollAux, List.append_eq]
      rw [ih xs b base2 post (by simpa using h)]

theorem zip_self_eq {α : Type} (xs : List α) : ∀ p ∈ xs.zip xs, p.2 = p.1 := by
  induction xs with
  | nil => simp
  | cons x rest ih =>
    intro p hp
    rw [List.zip_cons_cons] at hp
    rcases List.mem_cons.mp hp with h | h
    · rw [h]
    · exact ih p h

theorem zip_ne_exists {α : Type} (xs : List α) :
    ∀ ys : List α, xs.length = ys.length → xs ≠ ys →
    ∃ p ∈ xs.zip ys, p.2 ≠ p.1 := by
  induction xs with
  | nil =>
    intro ys h hne
    cases ys with
    | nil => exact absurd rfl hne
    | cons y rys => simp at h
  | cons x rest ih =>
    intro ys h hne
    cases ys with
    | nil => simp at h
    | cons y rys =>
      by_cases hxy : y = x
      · subst hxy
        have hrest : rest ≠ rys := fun hr => hne (by rw [hr])
        obtain ⟨p, hp, hpne⟩ := ih rys (by simpa using h) hrest
        exact ⟨p, by simp [List.zip_cons_cons, hp], hpne⟩
      · exact ⟨(x, y), by simp [List.zip_cons_cons], by simpa using hxy⟩

theorem any_decide_flags {α : Type} [DecidableEq α] (zl : List (α × α)) :
    (zl.map (fun p => decide (p.2 ≠ p.1))).any id =
      decide (∃ p ∈ zl, p.2 ≠ p.1) := by
  induction zl with
  | nil => simp
  | cons p rest ih =>
    simp only [List.map_cons, List.any_cons, ih]
    by_cases hp : p.2 = p.1 <;> simp [hp]

/-- `has_changed` when every `os.stat` succeeds: the result is the OR of
the per-file mtime comparisons, and the stored baselines become the
observed mtimes. -/
theorem has_changed_ok (w : FileWatcher) (obs : List Nat)
    (h : w.mtimes.length = obs.length) :
    w.has_changed (obs.map some) =
      .ok (decide (∃ p ∈ w.mtimes.zip (obs.map some), p.2 ≠ p.1),
        ⟨obs.map some⟩) := by
  unfold FileWatcher.has_changed
  rw [pollAux_ok obs w.mtimes h]
  dsimp only
  rw [any_decide_flags]

/-! ## Claims -/

/-- C1 (amended): `Gantt.plot` assigns each section the next color from
the palette in the order sections appear in the mapping — the bars'
colors are, section by section, the successive palette entries — but the
palette does NOT repeat, and `plot` does not succeed for every mapping:
for numeric-span data, `plot` succeeds when the sections fit the palette
and raises StopIteration (no cycling) when they exceed it; and a reached
task whose span involves a string makes `_plot_bar`'s `finish - start`
raise TypeError instead. -/
theorem palette_order (colors : List String) (data : DataMap) :
    (data.length ≤ colors.length →
      data.all (fun s => s.2.all numericTask) = true →
      ∃ ch, Gantt.plot colors data = .ok ch ∧
        ch.bars.map Bar.color = sectionColors colors data) ∧
    (colors.length < data.length →
      data.all (fun s => s.2.all numericTask) = true →
      Gantt.plot colors data = .error .stopIteration) ∧
    (∀ (pre : DataMap) (title : String) (ts : List TaskItem) (rest : DataMap),
      data = pre ++ (title, ts) :: rest →
      (∀ s ∈ pre, s.2.all numericTask = true) →
      pre.length < colors.length →
      ts.all numericTask = false →
      Gantt.plot colors data = .error .typeError) := by
  refine ⟨?_, ?_, ?_⟩
  · intro h hnum
    exact ⟨_, plot_ok_eq colors data h hnum, dataBars_map_color data colors 0 h⟩
  · intro h hnum
    exact plot_err colors data h hnum
  · intro pre title ts rest hdata hpre hlen hts
    rw [hdata]
    exact plot_typeError colors pre title ts rest hpre hlen hts

/-- C1 counterexample: with the default 10-color matplotlib palette and 11
sections, `Gantt.plot` raises StopIteration; contrary to the claim, color
assignment does not cycle back to the start of the palette and `plot` does
not succeed for any number of sections. -/
theorem palette_order_counterexample :
    Gantt.plot defaultColors
      [("s01", [(PyVal.num 0, PyVal.num 1, "t")]),
       ("s02", [(PyVal.num 0, PyVal.num 1, "t")]),
       ("s03", [(PyVal.num 0, PyVal.num 1, "t")]),
       ("s04", [(PyVal.num 0, PyVal.num 1, "t")]),
       ("s05", [(PyVal.num 0, PyVal.num 1, "t")]),
       ("s06", [(PyVal.num 0, PyVal.num 1, "t")]),
       ("s07", [(PyVal.num 0, PyVal.num 1, "t")]),
       ("s08", [(PyVal.num 0, PyVal.num 1, "t")]),
       ("s09", [(PyVal.num 0, PyVal.num 1, "t")]),
       ("s10", [(PyVal.num 0, PyVal.num 1, "t")]),
       ("s11", [(PyVal.num 0, PyVal.num 1, "t")])] =
      .error .stopIteration := by decide

/-- C1 witness: a two-section numeric mapping under a two-color palette
plots with the palette colors in section order; a two-section numeric
mapping under a one-color palette raises StopIteration; and a one-section
mapping whose task has the string spans "Mon"/"Tue" raises TypeError. -/
theorem palette_order_witness :
    (∃ ch, Gantt.plot ["a", "b"]
        [("A", [(PyVal.num 0, PyVal.num 1, "t")]), ("B", [])] = .ok ch ∧
      ch.bars.map Bar.color = sectionColors ["a", "b"]
        [("A", [(PyVal.num 0, PyVal.num 1, "t")]), ("B", [])]) ∧
    Gantt.plot ["a"] [("A", []), ("B", [])] = .error .stopIteration ∧
    Gantt.plot ["a"] [("A", [(PyVal.str "Mon", PyVal.str "Tue", "Kickoff")])] =
      .error .typeError :=
  ⟨(palette_order ["a", "b"]
      [("A", [(PyVal.num 0, PyVal.num 1, "t")]), ("B", [])]).1
      (by decide) (by decide),
   (palette_order ["a"] [("A", []), ("B", [])]).2.1 (by decide) (by decide),
   (palette_order ["a"]
      [("A", [(PyVal.str "Mon", PyVal.str "Tue", "Kickoff")])]).2.2
      [] "A" [(PyVal.str "Mon", PyVal.str "Tue", "Kickoff")] [] rfl
      (by simp) (by decide) (by decide)⟩

/-- C2: a task line processed while a current section exists (and, as in
every reachable state, that section is a key of the mapping) is split on
commas; the first field is `start`, the second `finish`, and all remaining
fields are rejoined with commas as the label.  In particular
"1,4,Write, then review" yields the label "Write, then review". -/
theorem task_line_label (st : ParseState) (l sec start finish : String)
    (ts : List TaskItem) (rest : List String)
    (hsec : st.currentSection = some sec)
    (hkey : odGet? st.data sec = some ts)
    (hig : ¬ (pyLen (pyStrip l) ≤ 1 ∨ pyStartsWith (pyStrip l) "#" = true))
    (hstar : ¬ pyStartsWith (pyStrip l) "*" = true)
    (hsplit : pySplitComma (pyStrip l) = start :: finish :: rest) :
    parseLine st l = .ok ⟨odInsert st.data sec
        (ts ++ [(maybe_to_num start, maybe_to_num finish,
          pyJoinComma rest)]), some sec⟩ ∧
    parse_csv ["*S", "1,4,Write, then review"] =
      .ok [("S", [(PyVal.num 1, PyVal.num 4, "Write, then review")])] := by
  constructor
  · rw [parseLine_task st l start finish rest hig hstar hsplit, hsec]
    dsimp only
    rw [hkey]
  · decide

/-- C2 witness: the general task-line equation evaluated on the claim's
own example line under section "S". -/
theorem task_line_label_witness :
    parseLine ⟨[("S", [])], some "S"⟩ "1,4,Write, then review" =
      .ok ⟨odInsert [("S", [])] "S"
          ([] ++ [(maybe_to_num "1", maybe_to_num "4",
            pyJoinComma ["Write", " then review"])]), some "S"⟩ ∧
    parse_csv ["*S", "1,4,Write, then review"] =
      .ok [("S", [(PyVal.num 1, PyVal.num 4, "Write, then review")])] :=
  task_line_label ⟨[("S", [])], some "S"⟩ "1,4,Write, then review" "S" "1" "4"
    [] ["Write", " then review"] (by decide) (by decide) (by decide)
    (by decide) (by decide)

/-- C3: whenever `Gantt.plot` succeeds, the bars sit at row positions
0, 1, 2, ... — a strictly increasing counter over all tasks in (section
order, task order) — with spans and labels the depth-first flattening of
the mapping; the row count equals the total task count; the y ticks are
`range(row count)`; and the y axis is inverted so row 0 renders at the
top. -/
theorem row_layout (colors : List String) (data : DataMap) (ch : Chart)
    (h : Gantt.plot colors data = .ok ch) :
    ch.bars.map Bar.ypos = List.range (totalTasks data) ∧
    ch.bars.map (fun b => (b.start, b.finish)) = chartTaskData data ∧
    ch.ylabels = chartLabels data ∧
    ch.ylabels.length = totalTasks data ∧
    ch.yticks = List.range (totalTasks data) ∧
    ch.yInverted = true := by
  obtain ⟨hle, hnum⟩ := plot_ok_inv h
  rw [plot_ok_eq colors data hle hnum] at h
  have hch := Except.ok.inj h
  subst hch
  dsimp only
  refine ⟨?_, ?_, rfl, ?_, ?_, rfl⟩
  · rw [List.range_eq_range']
    exact dataBars_map_ypos data colors 0 hle
  · exact dataBars_map_span data colors 0 hle
  · exact chartLabels_length data
  · rw [chartLabels_length data]

/-- C3 witness: the row-layout properties at a one-section, one-task
mapping. -/
theorem row_layout_witness :
    ([⟨0, PyVal.num 0, PyVal.num 1, "c"⟩] : List Bar).map Bar.ypos =
      List.range (totalTasks [("S", [(PyVal.num 0, PyVal.num 1, "x")])]) ∧
    ([⟨0, PyVal.num 0, PyVal.num 1, "c"⟩] : List Bar).map
        (fun b => (b.start, b.finish)) =
      chartTaskData [("S", [(PyVal.num 0, PyVal.num 1, "x")])] ∧
    ["x"] = chartLabels [("S", [(PyVal.num 0, PyVal.num 1, "x")])] ∧
    (["x"] : List String).length =
      totalTasks [("S", [(PyVal.num 0, PyVal.num 1, "x")])] ∧
    [0] = List.range (totalTasks [("S", [(PyVal.num 0, PyVal.num 1, "x")])]) ∧
    true = true :=
  row_layout ["c"] [("S", [(PyVal.num 0, PyVal.num 1, "x")])]
    ⟨[⟨0, PyVal.num 0, PyVal.num 1, "c"⟩], ["x"],
      [("S", ⟨0, PyVal.num 0, PyVal.num 1, "c"⟩)], [0], true⟩ (by decide)

/-- C4: with all stats succeeding, `has_changed` returns true iff some
tracked file's current mtime differs from its stored baseline (logical OR
across files) and stores the current mtimes as the new baseline; hence on
a first poll (baseline all `None`) any tracked file counts as changed, a
repeat poll with identical mtimes returns false, and a modification
between polls makes `has_changed` return true exactly once and then false
until the next modification. -/
theorem has_changed_spec (w : FileWatcher) (obs obs2 : List Nat)
    (h : w.mtimes.length = obs.length)
    (h2 : obs2.length = obs.length) (hne : obs2 ≠ obs) :
    w.has_changed (obs.map some) =
      .ok (decide (∃ p ∈ w.mtimes.zip (obs.map some), p.2 ≠ p.1),
        ⟨obs.map some⟩) ∧
    (w.mtimes = List.replicate obs.length none → 0 < obs.length →
      w.has_changed (obs.map some) = .ok (true, ⟨obs.map some⟩)) ∧
    FileWatcher.has_changed ⟨obs.map some⟩ (obs.map some) =
      .ok (false, ⟨obs.map some⟩) ∧
    FileWatcher.has_changed ⟨obs.map some⟩ (obs2.map some) =
      .ok (true, ⟨obs2.map some⟩) ∧
    FileWatcher.has_changed ⟨obs2.map some⟩ (obs2.map some) =
      .ok (false, ⟨obs2.map some⟩) := by
  have hmapne : (obs.map some : List (Option Nat)) ≠ obs2.map some := by
    intro hm
    exact hne ((List.map_injective_iff.mpr (Option.some_injective Nat) hm).symm)
  refine ⟨has_changed_ok w obs h, ?_, ?_, ?_, ?_⟩
  · intro hrep hpos
    rw [has_changed_ok w obs h]
    have hex : ∃ p ∈ w.mtimes.zip (obs.map some), p.2 ≠ p.1 := by
      cases obs with
      | nil => exact absurd hpos (by simp)
      | cons o os =>
        rw [hrep, List.length_cons, List.replicate_succ, List.map_cons,
          List.zip_cons_cons]
        exact ⟨(none, some o), List.mem_cons_self _ _, by simp⟩
    rw [decide_eq_true hex]
  · rw [has_changed_ok ⟨obs.map some⟩ obs (by simp)]
    have hnex : ¬ ∃ p ∈ (obs.map some : List (Option Nat)).zip (obs.map some),
        p.2 ≠ p.1 := by
      rintro ⟨p, hp, hpne⟩
      exact hpne (zip_self_eq (obs.map some) p hp)
    rw [decide_eq_false hnex]
  · rw [has_changed_ok ⟨obs.map some⟩ obs2 (by simp [h2])]
    have hex : ∃ p ∈ (obs.map some : List (Option Nat)).zip (obs2.map some),
        p.2 ≠ p.1 := by
      apply zip_ne_exists
      · simp [h2]
      · exact hmapne
    rw [decide_eq_true hex]
  · rw [has_changed_ok ⟨obs2.map some⟩ obs2 (by simp)]
    have hnex : ¬ ∃ p ∈ (obs2.map some : List (Option Nat)).zip (obs2.map some),
        p.2 ≠ p.1 := by
      rintro ⟨p, hp, hpne⟩
      exact hpne (zip_self_eq (obs2.map some) p hp)
    rw [decide_eq_false hnex]

/-- C4 witness: one tracked file, baseline `None`, first observed mtime 5,
then a modification to 7. -/
theorem has_changed_spec_witness :
    FileWatcher.has_changed ⟨[none]⟩ (([5] : List Nat).map some) =
      .ok (decide (∃ p ∈ ([none] : List (Option Nat)).zip
          (([5] : List Nat).map some), p.2 ≠ p.1),
        ⟨([5] : List Nat).map some⟩) ∧
    (([none] : List (Option Nat)) =
        List.replicate ([5] : List Nat).length none →
      0 < ([5] : List Nat).length →
      FileWatcher.has_changed ⟨[none]⟩ (([5] : List Nat).map some) =
        .ok (true, ⟨([5] : List Nat).map some⟩)) ∧
    FileWatcher.has_changed ⟨([5] : List Nat).map some⟩
        (([5] : List Nat).map some) =
      .ok (false, ⟨([5] : List Nat).map some⟩) ∧
    FileWatcher.has_changed ⟨([5] : List Nat).map some⟩
        (([7] : List Nat).map some) =
      .ok (true, ⟨([7] : List Nat).map some⟩) ∧
    FileWatcher.has_changed ⟨([7] : List Nat).map some⟩
        (([7] : List Nat).map some) =
      .ok (false, ⟨([7] : List Nat).map some⟩) :=
  has_changed_spec ⟨[none]⟩ [5] [7] rfl rfl (by decide)

/-- C5 (amended): the legend has exactly one entry per section that has at
least one task — an empty section gets no legend entry because the legend
dictionary is only written inside the task loop — and, for sections with
distinct titles, each entry's handle is the last bar drawn for that
section (`legendSpec`). -/
theorem legend_entries (colors : List String) (data : DataMap) (ch : Chart)
    (hnodup : (data.map Prod.fst).Nodup)
    (h : Gantt.plot colors data = .ok ch) :
    ch.legend.map Prod.fst =
      (data.filter (fun s => !s.2.isEmpty)).map Prod.fst ∧
    ch.legend = legendSpec 0 colors data := by
  obtain ⟨hle, hnum⟩ := plot_ok_inv h
  rw [plot_ok_eq colors data hle hnum] at h
  have hch := Except.ok.inj h
  subst hch
  have hleg : dataLegend 0 [] colors data = [] ++ legendSpec 0 colors data :=
    dataLegend_eq data colors 0 [] hnodup (fun sec _ => rfl)
  rw [List.nil_append] at hleg
  constructor
  · show (dataLegend 0 [] colors data).map Prod.fst = _
    rw [hleg]
    exact legendSpec_keys data colors 0 hle
  · exact hleg

/-- C5 counterexample: with two sections of which the first is empty, the
legend `Gantt.plot` builds names only the nonempty section "B" — not one
entry per section as claimed. -/
theorem legend_entries_counterexample :
    (Gantt.plot ["a", "b"]
        [("A", []), ("B", [(PyVal.num 0, PyVal.num 1, "t")])]).map
      (fun ch => ch.legend.map Prod.fst) = .ok ["B"] := by decide

/-- C5 witness: two nonempty sections with distinct titles produce one
legend entry each, keyed by the last bar of the section. -/
theorem legend_entries_witness :
    ([("A", ⟨0, PyVal.num 0, PyVal.num 1, "a"⟩),
      ("B", ⟨1, PyVal.num 2, PyVal.num 3, "b"⟩)] :
        List (String × Bar)).map Prod.fst =
      (([("A", [(PyVal.num 0, PyVal.num 1, "x")]),
         ("B", [(PyVal.num 2, PyVal.num 3, "y")])] : DataMap).filter
        (fun s => !s.2.isEmpty)).map Prod.fst ∧
    [("A", ⟨0, PyVal.num 0, PyVal.num 1, "a"⟩),
     ("B", ⟨1, PyVal.num 2, PyVal.num 3, "b"⟩)] =
      legendSpec 0 ["a", "b"]
        [("A", [(PyVal.num 0, PyVal.num 1, "x")]),
         ("B", [(PyVal.num 2, PyVal.num 3, "y")])] :=
  legend_entries ["a", "b"]
    [("A", [(PyVal.num 0, PyVal.num 1, "x")]),
     ("B", [(PyVal.num 2, PyVal.num 3, "y")])]
    ⟨[⟨0, PyVal.num 0, PyVal.num 1, "a"⟩, ⟨1, PyVal.num 2, PyVal.num 3, "b"⟩],
      ["x", "y"],
      [("A", ⟨0, PyVal.num 0, PyVal.num 1, "a"⟩),
       ("B", ⟨1, PyVal.num 2, PyVal.num 3, "b"⟩)],
      [0, 1], true⟩ (by decide) (by decide)

/-- C6 (amended): if the first non-blank, non-comment line of the input is
a task line with at least two comma-separated fields, and so no section
header precedes it, `parse_csv` fails with the missing-section error and
returns no mapping.  (A one-field task line fails with the malformed-line
error instead, because the two-field unpacking runs before the section
lookup.) -/
theorem task_before_section (pre : List String) (l : String)
    (post : List String) (start finish : String) (rest : List String)
    (hpre : ∀ p ∈ pre,
      pyLen (pyStrip p) ≤ 1 ∨ pyStartsWith (pyStrip p) "#" = true)
    (hig : ¬ (pyLen (pyStrip l) ≤ 1 ∨ pyStartsWith (pyStrip l) "#" = true))
    (hstar : ¬ pyStartsWith (pyStrip l) "*" = true)
    (hsplit : pySplitComma (pyStrip l) = start :: finish :: rest) :
    parse_csv (pre ++ l :: post) = .error .missingSection := by
  unfold parse_csv
  rw [parseLines_append, parseLines_ignored pre _ hpre]
  dsimp only
  rw [parseLines, parseLine_task _ l start finish rest hig hstar hsplit]
  rfl

/-- C6 counterexample: the input whose only line is the task line "ab"
(length 2, no comma, before any section header) raises the malformed-line
error, not the missing-section error the claim requires for every task
line: the field unpacking runs before the section lookup. -/
theorem task_before_section_counterexample :
    parse_csv ["ab"] = .error .malformedLine ∧
    ParseError.malformedLine ≠ ParseError.missingSection :=
  ⟨by decide, fun h => ParseError.noConfusion h⟩

/-- C6 witness: a comment line followed by the two-field task line "1,2"
with no section header fails with the missing-section error. -/
theorem task_before_section_witness :
    parse_csv (["# c"] ++ "1,2" :: []) = .error .missingSection :=
  task_before_section ["# c"] "1,2" [] "1" "2" []
    (by decide) (by decide) (by decide) (by decide)

/-- C7: whenever the parser reaches a non-ignored, non-header line whose
comma split has fewer than two fields — in particular a task line with no
comma — `parse_csv` fails with the malformed-line error. -/
theorem malformed_line (pre : List String) (l : String) (post : List String)
    (st : ParseState)
    (hpre : parseLines ⟨[], none⟩ pre = .ok st)
    (hig : ¬ (pyLen (pyStrip l) ≤ 1 ∨ pyStartsWith (pyStrip l) "#" = true))
    (hstar : ¬ pyStartsWith (pyStrip l) "*" = true)
    (hshort : (pySplitComma (pyStrip l)).length < 2) :
    parse_csv (pre ++ l :: post) = .error .malformedLine := by
  unfold parse_csv
  rw [parseLines_append, hpre]
  dsimp only
  rw [parseLines, parseLine_malformed st l hig hstar hshort]
  rfl

/-- C7 witness: the single-field task line "ab" under section "S" fails
with the malformed-line error. -/
theorem malformed_line_witness :
    parse_csv (["*S"] ++ "ab" :: []) = .error .malformedLine :=
  malformed_line ["*S"] "ab" [] ⟨[("S", [])], some "S"⟩
    (by decide) (by decide) (by decide) (by decide)

/-- C8: `maybe_to_num` converts a start/finish field to the parsed number
exactly when it is parseable as a float literal and keeps the original
string otherwise; the claim's two examples are evaluated end to end
through `parse_csv`. -/
theorem maybe_to_num_spec :
    (∀ s q, pyFloat? s = some q → maybe_to_num s = PyVal.num q) ∧
    (∀ s, pyFloat? s = none → maybe_to_num s = PyVal.str s) ∧
    parse_csv ["*Phase 1", "0,3,Design"] =
      .ok [("Phase 1", [(PyVal.num 0, PyVal.num 3, "Design")])] ∧
    parse_csv ["*S", "Mon,Tue,Kickoff"] =
      .ok [("S", [(PyVal.str "Mon", PyVal.str "Tue", "Kickoff")])] := by
  refine ⟨?_, ?_, by decide, by decide⟩
  · intro s q hq
    unfold maybe_to_num
    rw [hq]
  · intro s hn
    unfold maybe_to_num
    rw [hn]

/-- C8 witness: "2.5" parses to the number 5/2, "Mon" stays the string
"Mon". -/
theorem maybe_to_num_spec_witness :
    maybe_to_num "2.5" = PyVal.num (mkRat 5 2) ∧
    maybe_to_num "Mon" = PyVal.str "Mon" :=
  ⟨maybe_to_num_spec.1 "2.5" (mkRat 5 2) (by decide),
   maybe_to_num_spec.2.1 "Mon" (by decide)⟩

/-- C9: a task line with exactly two comma-separated fields (one comma) is
accepted under an existing section and produces a task whose label is the
empty string; in particular "1,2" under section "S". -/
theorem two_field_line (st : ParseState) (l sec a b : String)
    (ts : List TaskItem)
    (hsec : st.currentSection = some sec)
    (hkey : odGet? st.data sec = some ts)
    (hig : ¬ (pyLen (pyStrip l) ≤ 1 ∨ pyStartsWith (pyStrip l) "#" = true))
    (hstar : ¬ pyStartsWith (pyStrip l) "*" = true)
    (hsplit : pySplitComma (pyStrip l) = [a, b]) :
    parseLine st l = .ok ⟨odInsert st.data sec
        (ts ++ [(maybe_to_num a, maybe_to_num b, "")]), some sec⟩ ∧
    parse_csv ["*S", "1,2"] =
      .ok [("S", [(PyVal.num 1, PyVal.num 2, "")])] := by
  constructor
  · rw [parseLine_task st l a b [] hig hstar hsplit, hsec]
    dsimp only
    rw [hkey]
    rfl
  · decide

/-- C9 witness: the two-field equation evaluated on "1,2" under section
"S". -/
theorem two_field_line_witness :
    parseLine ⟨[("S", [])], some "S"⟩ "1,2" =
      .ok ⟨odInsert [("S", [])] "S"
          ([] ++ [(maybe_to_num "1", maybe_to_num "2", "")]), some "S"⟩ ∧
    parse_csv ["*S", "1,2"] =
      .ok [("S", [(PyVal.num 1, PyVal.num 2, "")])] :=
  two_field_line ⟨[("S", [])], some "S"⟩ "1,2" "S" "1" "2" []
    (by decide) (by decide) (by decide) (by decide) (by decide)

/-- C10: `has_changed` updates baselines file by file in list order, so
when the stat of the file at index k raises, the error propagates with the
baselines before k already overwritten by the fresh mtimes and those at
and after k unchanged — the update is not atomic on error. -/
theorem has_changed_partial_update (pre : List Nat) (b : Option Nat)
    (base1 base2 post : List (Option Nat))
    (h : base1.length = pre.length) :
    FileWatcher.has_changed ⟨base1 ++ b :: base2⟩
        ((pre.map some) ++ none :: post) =
      .error ⟨(pre.map some) ++ b :: base2⟩ := by
  unfold FileWatcher.has_changed
  dsimp only
  rw [pollAux_error pre base1 b base2 post h]

/-- C10 witness: three tracked files, the stat of the second raises: the
first baseline is updated, the second and third keep their old values. -/
theorem has_changed_partial_update_witness :
    FileWatcher.has_changed ⟨[some 0, some 7, some 9]⟩
        [some 1, none, some 2] = .error ⟨[some 1, some 7, some 9]⟩ :=
  has_changed_partial_update [1] (some 7) [some 0] [some 9] [some 2] rfl
